import Mathlib

/-!
Verification development for the Droughts repository.

Part 1 embeds `preprocess.py`: the raster preprocessor that converts a
multi-band raster time series into a normalized 4-D array, a tabular record
collection, and global mean / standard-deviation statistics.

Part 2 embeds `src/models/rcnn_module.py`: the recurrent convolutional
forecasting module (forward computation, step computation, optimizer
configuration).

Raster band values are modelled as rationals; external library behaviour
(GDAL band reads, torch convolutions and nonlinearities) is modelled at the
boundary by abstract functions.
-/

namespace Droughts

/-- A multi-band raster as read by `gdal.Open`: `numMonths = ds.RasterCount`,
`xsize = ds.RasterXSize`, `ysize = ds.RasterYSize`, and `bands i row col` the
value of band `i` at grid position `(row, col)` (a band's `ReadAsArray` is a
`(ysize, xsize)`-shaped grid, first index the row). -/
structure Raster where
  numMonths : Nat
  xsize : Nat
  ysize : Nat
  bands : Nat → Nat → Nat → ℚ

/-- One row of `total_df`: columns `date`, `x`, `y`, `value`. -/
structure Record where
  date : String
  x : Nat
  y : Nat
  value : ℚ
  deriving DecidableEq

/-- Lines 51-53 of `preprocess.py`: `if feature == "pdsi": data = data / 100`. -/
def normValue (f : String) (v : ℚ) : ℚ :=
  if f = "pdsi" then v / 100 else v

/-- The (possibly normalized) 2-D band array `data` for band `i`:
`data row col = normValue feature (bands i row col)`. -/
def bandData (f : String) (r : Raster) (i row col : Nat) : ℚ :=
  normValue f (r.bands i row col)

/-- Reading `data[x][y]` from a `(ysize, xsize)`-shaped numpy array: the first
index must be below `ysize` and the second below `xsize`, otherwise the read
raises an out-of-bounds `IndexError` (modelled as `none`). -/
def cellValue (r : Raster) (data : Nat → Nat → ℚ) (x y : Nat) : Option ℚ :=
  if x < r.ysize ∧ y < r.xsize then some (data x y) else none

/-- The index pairs visited by the nested per-cell loop, in order:
`for x in range(xsize): for y in range(ysize)`. -/
def allPairs (r : Raster) : List (Nat × Nat) :=
  (List.range r.xsize).flatMap fun x => (List.range r.ysize).map fun y => (x, y)

/-- The per-cell export loop over a list of `(x, y)` pairs: each visited cell
appends one record with the current date, `x`, `y` and `data[x][y]`; an
out-of-bounds read aborts the whole loop. -/
def cellsFrom (r : Raster) (date : String) (data : Nat → Nat → ℚ) :
    List (Nat × Nat) → Option (List Record)
  | [] => some []
  | p :: rest =>
    (cellValue r data p.1 p.2).bind fun v =>
      (cellsFrom r date data rest).map fun tail =>
        { date := date, x := p.1, y := p.2, value := v } :: tail

/-- Lines 55-60 of `preprocess.py`: the nested per-cell export loop of one
band. -/
def cellLoop (r : Raster) (date : String) (data : Nat → Nat → ℚ) :
    Option (List Record) :=
  cellsFrom r date data (allPairs r)

/-- The module-level mutable state of the band loop: the `(curr_month,
curr_year)` cursor, the `all_data` array (month, channel, y, x) and the
accumulated `total_df` rows. -/
structure PrepState where
  month : Int
  year : Int
  allData : Nat → Nat → Nat → Nat → ℚ
  records : List Record

/-- The `(year, month)` pair whose date string a band-loop iteration emits:
lines 44-48 of `preprocess.py` first roll the cursor (`if curr_month == 0:
curr_month = 12; curr_year -= 1`) and then format the date. The cursor state
is `(curr_month, curr_year)`. -/
def emittedYM (cur : Int × Int) : Int × Int :=
  if cur.1 = 0 then (cur.2 - 1, 12) else (cur.2, cur.1)

/-- The cursor state after one band-loop iteration: the rollover at the top of
the loop followed by `curr_month -= 1` at the bottom (line 62). -/
def cursorStep (cur : Int × Int) : Int × Int :=
  if cur.1 = 0 then (11, cur.2 - 1) else (cur.1 - 1, cur.2)

/-- The cursor state at the start of iteration `k`. -/
def cursorIter (cur : Int × Int) : Nat → Int × Int
  | 0 => cur
  | k + 1 => cursorIter (cursorStep cur) k

/-- The `(year, month)` pair emitted at iteration `k` of the band loop. -/
def emittedAt (cur : Int × Int) (k : Nat) : Int × Int :=
  emittedYM (cursorIter cur k)

/-- Line 48 of `preprocess.py`: `curr_date = str(curr_year) + "-" +
str(curr_month)` (no zero padding). -/
def dateStr (ym : Int × Int) : String :=
  toString ym.1 ++ "-" ++ toString ym.2

/-- One iteration of the band loop (lines 43-62) for band index `i`: emit the
date, read and normalize the band, store it at `all_data[i][0]`, run the
per-cell export loop, and advance the cursor. An out-of-bounds cell read
aborts the iteration (and with it the whole run). -/
def processBand (f : String) (r : Raster) (st : PrepState) (i : Nat) :
    Option PrepState :=
  (cellLoop r (dateStr (emittedYM (st.month, st.year))) (bandData f r i)).map
    fun recs =>
      { month := (cursorStep (st.month, st.year)).1
        year := (cursorStep (st.month, st.year)).2
        allData := fun i' ch yy xx =>
          if i' = i ∧ ch = 0 then bandData f r i yy xx else st.allData i' ch yy xx
        records := st.records ++ recs }

/-- Run the band loop over a list of band indices. -/
def runBands (f : String) (r : Raster) : List Nat → PrepState → Option PrepState
  | [], st => some st
  | i :: rest, st => (processBand f r st i).bind (runBands f r rest)

/-- `[s, s - 1, ..., s - (k - 1)]`: a descending list of `k` indices. -/
def downFrom : Nat → Nat → List Nat
  | _, 0 => []
  | s, k + 1 => s :: downFrom (s - 1) k

/-- The band indices visited by `range(num_of_months - 1, 1, -1)`:
`[N - 1, N - 2, ..., 2]`, which is `max (N - 2) 0` indices. -/
def bandList (n : Nat) : List Nat :=
  downFrom (n - 1) (n - 2)

/-- Lines 36-40 of `preprocess.py`: zero-initialized `all_data`, cursor at
`(endmonth, endyear)`, empty record collection. -/
def initState (endyear endmonth : Int) : PrepState :=
  { month := endmonth, year := endyear, allData := fun _ _ _ _ => 0, records := [] }

/-- The whole preprocessing loop of `preprocess.py` for one raster: `none`
when a per-cell read aborts the run, otherwise the final module state from
which the four output artifacts are produced. -/
def preprocessRun (f : String) (endyear endmonth : Int) (r : Raster) :
    Option PrepState :=
  runBands f r (bandList r.numMonths) (initState endyear endmonth)

/-- The full contents of the record collection of a completed run, as a flat
list indexed by iteration number `k` (band `numMonths - 1 - k`). -/
def runRecords (f : String) (r : Raster) (ey em : Int) (n : Nat) : List Record :=
  (List.range (n - 2)).flatMap fun k =>
    (allPairs r).map fun p =>
      { date := dateStr (emittedAt (em, ey) k), x := p.1, y := p.2,
        value := bandData f r (n - 1 - k) p.1 p.2 }

/-- The bound condition under which every per-cell read of a band succeeds. -/
def cellsOK (r : Raster) : Prop :=
  ∀ x, x < r.xsize → ∀ y, y < r.ysize → x < r.ysize ∧ y < r.xsize

instance (r : Raster) : Decidable (cellsOK r) := by
  unfold cellsOK; infer_instance

/-- All entries of the `(n, 1, ys, xs)`-shaped array, in row-major order, as
the flat list over which `np.mean` / `np.std` reduce. -/
def allEntries (a : Nat → Nat → Nat → Nat → ℚ) (n ys xs : Nat) : List ℚ :=
  (List.range n).flatMap fun m =>
    (List.range ys).flatMap fun yy =>
      (List.range xs).map fun xx => a m 0 yy xx

/-- `np.mean` of a flat list of values (population mean). -/
def npMean (l : List ℚ) : ℚ :=
  l.sum / (l.length : ℚ)

/-- The population variance used by `np.std` (`ddof = 0`): the mean of the
squared deviations from the mean. -/
def npVariance (l : List ℚ) : ℚ :=
  ((l.map fun v => (v - npMean l) ^ 2).sum) / (l.length : ℚ)

/-- `np.std` of a flat list of values: the population standard deviation. -/
noncomputable def npStd (l : List ℚ) : ℝ :=
  Real.sqrt ((npVariance l : ℚ) : ℝ)

/-- Lines 69-72 of `preprocess.py`: the `(1, 1, 1, 1)`-shaped `global_means`
array, zero except entry `[0, 0, 0, 0] = np.mean(all_data)`. -/
def globalMeans (out : PrepState) (r : Raster) : Nat → Nat → Nat → Nat → ℚ :=
  fun a b c d =>
    if a = 0 ∧ b = 0 ∧ c = 0 ∧ d = 0 then
      npMean (allEntries out.allData r.numMonths r.ysize r.xsize)
    else 0

/-- Lines 69-73 of `preprocess.py`: the `(1, 1, 1, 1)`-shaped `global_stds`
array, zero except entry `[0, 0, 0, 0] = np.std(all_data)`. -/
noncomputable def globalStds (out : PrepState) (r : Raster) :
    Nat → Nat → Nat → Nat → ℝ :=
  fun a b c d =>
    if a = 0 ∧ b = 0 ∧ c = 0 ∧ d = 0 then
      npStd (allEntries out.allData r.numMonths r.ysize r.xsize)
    else 0

/-- The mean of the full array computed directly, as a triple finite sum over
every month slot and every cell, divided by the total number of entries. -/
def directMean (a : Nat → Nat → Nat → Nat → ℚ) (n ys xs : Nat) : ℚ :=
  (∑ m ∈ Finset.range n, ∑ yy ∈ Finset.range ys, ∑ xx ∈ Finset.range xs,
    a m 0 yy xx) / ((n * (ys * xs) : Nat) : ℚ)

/-- The population variance of the full array computed directly. -/
def directVariance (a : Nat → Nat → Nat → Nat → ℚ) (n ys xs : Nat) : ℚ :=
  (∑ m ∈ Finset.range n, ∑ yy ∈ Finset.range ys, ∑ xx ∈ Finset.range xs,
    (a m 0 yy xx - directMean a n ys xs) ^ 2) / ((n * (ys * xs) : Nat) : ℚ)

/-- The population standard deviation of the full array computed directly. -/
noncomputable def directStd (a : Nat → Nat → Nat → Nat → ℚ) (n ys xs : Nat) : ℝ :=
  Real.sqrt ((directVariance a n ys xs : ℚ) : ℝ)

/-- The records accumulated by running the band loop over a list of band
indices starting from cursor state `cur`, one block per band in loop order. -/
def expectedRecords (f : String) (r : Raster) (cur : Int × Int) :
    List Nat → List Record
  | [] => []
  | i :: rest =>
    ((allPairs r).map fun p =>
      { date := dateStr (emittedYM cur), x := p.1, y := p.2,
        value := bandData f r i p.1 p.2 })
      ++ expectedRecords f r (cursorStep cur) rest

/-- The calendar-decrement step that the specification describes for the date
cursor ("rolling the month from 0 back to 12 and decrementing the year exactly
when the month underflows"), written from the spec's words for comparison with
the embedded cursor. -/
def specMonthRoll (ym : Int × Int) : Int × Int :=
  if ym.2 = 1 then (ym.1 - 1, 12) else (ym.1, ym.2 - 1)

/-!
Part 2: the recurrent convolutional forecasting module
(`src/models/rcnn_module.py`). Tensors carry an explicit shape and an
unbounded index function; torch layers and nonlinearities are abstract
functions supplied at construction.
-/

/-- A 4-D tensor `(batch, channel, height, width)`: a shape plus an index
function. -/
structure Tensor4 where
  n : Nat
  c : Nat
  h : Nat
  w : Nat
  data : Nat → Nat → Nat → Nat → ℚ

/-- The shape tuple of a tensor. -/
def Tensor4.shape (t : Tensor4) : Nat × Nat × Nat × Nat :=
  (t.n, t.c, t.h, t.w)

/-- Elementwise product of same-shaped tensors (torch `*`). -/
def tmul (a b : Tensor4) : Tensor4 :=
  ⟨a.n, a.c, a.h, a.w, fun i j k l => a.data i j k l * b.data i j k l⟩

/-- Elementwise sum of same-shaped tensors (torch `+`). -/
def tadd (a b : Tensor4) : Tensor4 :=
  ⟨a.n, a.c, a.h, a.w, fun i j k l => a.data i j k l + b.data i j k l⟩

/-- An elementwise scalar function applied to a tensor (torch `tanh`, `relu`,
`sigmoid`). -/
def tmap (g : ℚ → ℚ) (a : Tensor4) : Tensor4 :=
  ⟨a.n, a.c, a.h, a.w, fun i j k l => g (a.data i j k l)⟩

/-- `torch.cat([a, b], dim=1)`: channel concatenation. -/
def tcat (a b : Tensor4) : Tensor4 :=
  ⟨a.n, a.c + b.c, a.h, a.w, fun i j k l =>
    if j < a.c then a.data i j k l else b.data i (j - a.c) k l⟩

/-- `torch.zeros(n, c, h, w)`. -/
def zeros4 (n c h w : Nat) : Tensor4 :=
  ⟨n, c, h, w, fun _ _ _ _ => 0⟩

/-- Modelled from the spec: the shared `ConvBlock` primitive
(`src/models/components/conv_block.py` is imported by the module but is not
among the provided sources). Per §6 it is "a reusable parametrized convolution
layer (input channels, output channels, kernel size)" with a documented
input/output channel contract, and per §8 property 6 the forward computation
built from it preserves spatial shape for valid configurations; so a block
`make c_in c_out kernel` maps a `(b, c_in, h, w)` tensor to a
`(b, c_out, h, w)` tensor for nonempty spatial dimensions. -/
structure ConvBlockFactory where
  make : Nat → Nat → Nat → Tensor4 → Tensor4
  shape_ok : ∀ cin cout k t, t.c = cin → 1 ≤ t.h → 1 ≤ t.w →
    (make cin cout k t).shape = (t.n, cout, t.h, t.w)

/-- The fields of `RCNNModule` set by `__init__` (lines 26-104):
hyperparameters, the composed stages, and the zero-initialized carried
Forecast State. -/
structure RCNNModule where
  embedding_size : Nat
  hidden_state_size : Nat
  n_cells_hor : Nat
  n_cells_ver : Nat
  batch_size : Nat
  embedding : Tensor4 → Tensor4
  hidden_to_result : Tensor4 → Tensor4
  f_t : Tensor4 → Tensor4
  i_t : Tensor4 → Tensor4
  c_t : Tensor4 → Tensor4
  o_t : Tensor4 → Tensor4
  final_conv : Tensor4 → Tensor4
  prev_state : Tensor4 × Tensor4

/-- `RCNNModule.__init__` (lines 26-104): builds the embedding stage
(`ConvBlock(1, emb, 3) → ReLU → ConvBlock(emb, emb, 3)`), the
`hidden_to_result` stage (`ConvBlock(hid, 2, 3) → Softmax(dim=1)`), the four
gates (`ConvBlock(hid+emb, hid, 3)` followed by sigmoid / sigmoid / tanh /
sigmoid), the final decode stage (two `nn.Conv2d` layers with a ReLU between),
and the all-zero initial state. `cb` is the shared `ConvBlock` factory,
`conv2d cin cout kernel stride padding bias` models `nn.Conv2d`, and
`sigmoidFn`, `tanhFn`, `reluFn`, `softmax1` model the torch nonlinearities. -/
def mkRCNNModule (cb : ConvBlockFactory)
    (conv2d : Nat → Nat → Nat → Nat → Nat → Bool → Tensor4 → Tensor4)
    (sigmoidFn tanhFn reluFn : ℚ → ℚ) (softmax1 : Tensor4 → Tensor4)
    (embedding_size hidden_state_size n_cells_hor n_cells_ver batch_size : Nat) :
    RCNNModule :=
  { embedding_size := embedding_size
    hidden_state_size := hidden_state_size
    n_cells_hor := n_cells_hor
    n_cells_ver := n_cells_ver
    batch_size := batch_size
    embedding := fun x =>
      cb.make embedding_size embedding_size 3
        (tmap reluFn (cb.make 1 embedding_size 3 x))
    hidden_to_result := fun t => softmax1 (cb.make hidden_state_size 2 3 t)
    f_t := fun t =>
      tmap sigmoidFn (cb.make (hidden_state_size + embedding_size) hidden_state_size 3 t)
    i_t := fun t =>
      tmap sigmoidFn (cb.make (hidden_state_size + embedding_size) hidden_state_size 3 t)
    c_t := fun t =>
      tmap tanhFn (cb.make (hidden_state_size + embedding_size) hidden_state_size 3 t)
    o_t := fun t =>
      tmap sigmoidFn (cb.make (hidden_state_size + embedding_size) hidden_state_size 3 t)
    final_conv := fun t =>
      conv2d hidden_state_size 1 1 1 0 false
        (tmap reluFn (conv2d hidden_state_size hidden_state_size 3 1 1 false t))
    prev_state :=
      (zeros4 batch_size hidden_state_size n_cells_hor n_cells_ver,
       zeros4 batch_size hidden_state_size n_cells_hor n_cells_ver) }

/-- `RCNNModule.forward` (lines 106-124): the convolutional-LSTM update. The
two `assert` statements are modelled as a fatal failure (`none`); `tanhFn`
models `torch.tanh`. -/
def RCNNModule.forward (tanhFn : ℚ → ℚ) (M : RCNNModule) (x : Tensor4)
    (prev_state : Tensor4 × Tensor4) : Option ((Tensor4 × Tensor4) × Tensor4) :=
  let prev_c := prev_state.1
  let prev_h := prev_state.2
  let x_emb := M.embedding x
  let x_and_h := tcat prev_h x_emb
  let f_i := M.f_t x_and_h
  let i_i := M.i_t x_and_h
  let c_i := M.c_t x_and_h
  let o_i := M.o_t x_and_h
  let next_c := tadd (tmul prev_c f_i) (tmul i_i c_i)
  let next_h := tmul (tmap tanhFn next_c) o_i
  if prev_h.shape = next_h.shape ∧ prev_c.shape = next_c.shape then
    some ((next_c, next_h), M.final_conv next_h)
  else none

/-- The channel concatenation `x_and_h = torch.cat([prev_h, x_emb], dim=1)`
of line 109. -/
def lstmConcat (M : RCNNModule) (x ph : Tensor4) : Tensor4 :=
  tcat ph (M.embedding x)

/-- `next_c = prev_c * f_i + i_i * c_i` of line 116. -/
def lstmNextCell (M : RCNNModule) (x pc ph : Tensor4) : Tensor4 :=
  tadd (tmul pc (M.f_t (lstmConcat M x ph)))
    (tmul (M.i_t (lstmConcat M x ph)) (M.c_t (lstmConcat M x ph)))

/-- `next_h = torch.tanh(next_c) * o_i` of line 117. -/
def lstmNextHidden (tanhFn : ℚ → ℚ) (M : RCNNModule) (x pc ph : Tensor4) : Tensor4 :=
  tmul (tmap tanhFn (lstmNextCell M x pc ph)) (M.o_t (lstmConcat M x ph))

/-- `nn.MSELoss()`: the mean over all entries of the squared difference;
a shape mismatch is a fatal library error (`none`). -/
def mseLoss (a b : Tensor4) : Option ℚ :=
  if a.shape = b.shape then
    some ((((List.range a.n).flatMap fun i =>
        (List.range a.c).flatMap fun j =>
          (List.range a.h).flatMap fun k =>
            (List.range a.w).map fun l => (a.data i j k l - b.data i j k l) ^ 2).sum)
      / ((a.n * a.c * a.h * a.w : Nat) : ℚ))
  else none

/-- `RCNNModule.step` (lines 127-131) with the carried `self.prev_state` made
explicit: `forward` runs first and the tuple assignment installs the returned
state before the loss is computed, so a loss failure (inner `none`) still
leaves the freshly computed state in place; a `forward` failure (outer `none`)
happens before the assignment. -/
def RCNNModule.step (tanhFn : ℚ → ℚ) (M : RCNNModule) (st : Tensor4 × Tensor4)
    (batch : Tensor4 × Tensor4) :
    Option ((Tensor4 × Tensor4) × Option (ℚ × Tensor4 × Tensor4)) :=
  (M.forward tanhFn batch.1 st).map fun res =>
    (res.1, (mseLoss res.2 batch.2).map fun l => (l, res.2, batch.2))

/-- The hyperparameters persisted by `save_hyperparameters()`: exactly the
five declared constructor parameters with their values (lines 26-38). -/
def declaredHparams
    (embedding_size hidden_state_size n_cells_hor n_cells_ver batch_size : Nat) :
    List (String × ℚ) :=
  [("embedding_size", (embedding_size : ℚ)),
   ("hidden_state_size", (hidden_state_size : ℚ)),
   ("n_cells_hor", (n_cells_hor : ℚ)),
   ("n_cells_ver", (n_cells_ver : ℚ)),
   ("batch_size", (batch_size : ℚ))]

/-- Attribute access `self.hparams.<key>`: `none` models the fatal
missing-attribute error. -/
def hparamGet (hp : List (String × ℚ)) (key : String) : Option ℚ :=
  (hp.find? fun kv => kv.1 == key).map fun kv => kv.2

/-- The Adam optimizer configuration built by `configure_optimizers`. -/
structure AdamOptimizer where
  lr : ℚ
  weight_decay : ℚ
  deriving DecidableEq

/-- `RCNNModule.configure_optimizers` (lines 179-190): a single Adam optimizer
over all trainable parameters whose learning rate and weight decay are read
from `self.hparams.lr` and `self.hparams.weight_decay`; a missing attribute is
a fatal error. -/
def configure_optimizers (hp : List (String × ℚ)) : Option AdamOptimizer :=
  match hparamGet hp ("lr"), hparamGet hp ("weight_decay") with
  | some l, some w => some { lr := l, weight_decay := w }
  | _, _ => none

/-!
Concrete instances used by witnesses and counterexamples.
-/

/-- A square 4-band 2x2 raster on which the preprocessor completes. -/
def wRaster : Raster :=
  ⟨4, 2, 2, fun i row col => (i : ℚ) + (row : ℚ) + (col : ℚ)⟩

/-- A 3-band 1x1 raster with constant value 5, for the pdsi witness. -/
def wRasterPdsi : Raster :=
  ⟨3, 1, 1, fun _ _ _ => 5⟩

/-- A square 3-band 2x2 raster whose single processed band is asymmetric:
band 2 has `data[0][1] = 21` but `data[1][0] = 22`. -/
def exRaster : Raster :=
  ⟨3, 2, 2, fun _ row col =>
    if row = 0 ∧ col = 0 then 20
    else if row = 0 ∧ col = 1 then 21
    else if row = 1 ∧ col = 0 then 22
    else 23⟩

/-- A degenerate raster with `ysize = 0 < 1 = xsize`: the inner per-cell loop
body never runs, so no out-of-bounds read ever happens. -/
def degRaster : Raster :=
  ⟨3, 1, 0, fun _ _ _ => 0⟩

/-- A 3-band raster with `xsize = 2 > 1 = ysize`, for the out-of-bounds
witness. -/
def wBadRaster : Raster :=
  ⟨3, 2, 1, fun _ _ _ => 0⟩

/-- The final state of a completing run (junk fallback for a failing one). -/
def wOut (f : String) (ey em : Int) (r : Raster) : PrepState :=
  (preprocessRun f ey em r).getD (initState 0 0)

/-- A concrete `ConvBlock` factory: keeps the index function and retags the
channel count. -/
def constCB : ConvBlockFactory :=
  ⟨fun _ cout _ t => ⟨t.n, cout, t.h, t.w, t.data⟩, fun _ _ _ _ _ _ _ => rfl⟩

/-- A concrete `nn.Conv2d` stand-in with the same index function. -/
def wConv2d : Nat → Nat → Nat → Nat → Nat → Bool → Tensor4 → Tensor4 :=
  fun _ cout _ _ _ _ t => ⟨t.n, cout, t.h, t.w, t.data⟩

/-- A concrete module instance with all sizes 1 and identity nonlinearities. -/
def wModule : RCNNModule :=
  mkRCNNModule constCB wConv2d id id id id 1 1 1 1 1

/-- The all-zero `(1, 1, 1, 1)` tensor. -/
def wTensor : Tensor4 :=
  zeros4 1 1 1 1

/-- The result of one concrete forward computation of `wModule` (junk fallback
value never used: the computation succeeds). -/
def wFwd : (Tensor4 × Tensor4) × Tensor4 :=
  (wModule.forward id wTensor (wTensor, wTensor)).getD ((wTensor, wTensor), wTensor)

/-!
Characterization lemmas for the preprocessor embedding.
-/

theorem mem_allPairs {r : Raster} {p : Nat × Nat} :
    p ∈ allPairs r ↔ p.1 < r.xsize ∧ p.2 < r.ysize := by
  rcases p with ⟨x, y⟩
  simp [allPairs]

theorem cellsFrom_some {r : Raster} {date : String} {data : Nat → Nat → ℚ} :
    ∀ {L : List (Nat × Nat)}, (∀ p ∈ L, p.1 < r.ysize ∧ p.2 < r.xsize) →
      cellsFrom r date data L
        = some (L.map fun p => { date := date, x := p.1, y := p.2, value := data p.1 p.2 }) := by
  intro L
  induction L with
  | nil => intro _; rfl
  | cons p rest ih =>
    intro hall
    have hp : p.1 < r.ysize ∧ p.2 < r.xsize := hall p (by simp)
    have hrest := fun q hq => hall q (List.mem_cons_of_mem p hq)
    simp [cellsFrom, cellValue, hp, ih hrest]

theorem cellsFrom_none {r : Raster} {date : String} {data : Nat → Nat → ℚ} :
    ∀ {L : List (Nat × Nat)}, (∃ p ∈ L, ¬(p.1 < r.ysize ∧ p.2 < r.xsize)) →
      cellsFrom r date data L = none := by
  intro L
  induction L with
  | nil => intro h; simp at h
  | cons p rest ih =>
    intro h
    rcases h with ⟨q, hq, hbad⟩
    rcases List.mem_cons.mp hq with h | hmem
    · subst h
      simp [cellsFrom, cellValue, hbad]
    · cases hc : cellValue r data p.1 p.2 with
      | none => simp [cellsFrom, hc]
      | some v => simp [cellsFrom, hc, ih ⟨q, hmem, hbad⟩]

theorem cellsFrom_inv {r : Raster} {date : String} {data : Nat → Nat → ℚ} :
    ∀ {L : List (Nat × Nat)} {recs : List Record}, cellsFrom r date data L = some recs →
      recs = L.map fun p => { date := date, x := p.1, y := p.2, value := data p.1 p.2 } := by
  intro L
  induction L with
  | nil =>
    intro recs h
    simpa [cellsFrom] using h.symm
  | cons p rest ih =>
    intro recs h
    rw [cellsFrom] at h
    cases hc : cellValue r data p.1 p.2 with
    | none => rw [hc] at h; simp at h
    | some v =>
      rw [hc] at h
      cases hrest : cellsFrom r date data rest with
      | none => rw [hrest] at h; simp at h
      | some tail =>
        rw [hrest] at h
        have hv : v = data p.1 p.2 := by
          by_cases hb : p.1 < r.ysize ∧ p.2 < r.xsize
          · rw [cellValue, if_pos hb] at hc
            exact (Option.some.inj hc).symm
          · rw [cellValue, if_neg hb] at hc; cases hc
        replace h : ({ date := date, x := p.1, y := p.2, value := v } : Record) :: tail
            = recs := by
          have h2 : some (({ date := date, x := p.1, y := p.2, value := v } : Record) :: tail)
              = some recs := h
          exact Option.some.inj h2
        rw [← h, hv, ih hrest]
        rfl

theorem cellLoop_some {r : Raster} {date : String} {data : Nat → Nat → ℚ}
    (h : cellsOK r) :
    cellLoop r date data
      = some ((allPairs r).map fun p =>
          { date := date, x := p.1, y := p.2, value := data p.1 p.2 }) := by
  apply cellsFrom_some
  intro p hp
  rcases mem_allPairs.mp hp with ⟨h1, h2⟩
  exact h p.1 h1 p.2 h2

theorem cellLoop_none {r : Raster} {date : String} {data : Nat → Nat → ℚ}
    (h : ¬ cellsOK r) :
    cellLoop r date data = none := by
  apply cellsFrom_none
  rw [cellsOK] at h
  push_neg at h
  rcases h with ⟨x, hx, y, hy, hbad⟩
  refine ⟨(x, y), mem_allPairs.mpr ⟨hx, hy⟩, ?_⟩
  rintro ⟨hys, hyx⟩
  have := hbad hys
  omega

theorem processBand_some {f : String} {r : Raster} {st : PrepState} {i : Nat}
    (h : cellsOK r) :
    processBand f r st i = some
      { month := (cursorStep (st.month, st.year)).1
        year := (cursorStep (st.month, st.year)).2
        allData := fun i' ch yy xx =>
          if i' = i ∧ ch = 0 then bandData f r i yy xx else st.allData i' ch yy xx
        records := st.records ++ (allPairs r).map fun p =>
          { date := dateStr (emittedYM (st.month, st.year)), x := p.1, y := p.2,
            value := bandData f r i p.1 p.2 } } := by
  rw [processBand, cellLoop_some h]
  rfl

theorem processBand_none {f : String} {r : Raster} {st : PrepState} {i : Nat}
    (h : ¬ cellsOK r) :
    processBand f r st i = none := by
  rw [processBand, cellLoop_none h]
  rfl

theorem runBands_isSome {f : String} {r : Raster} (h : cellsOK r) :
    ∀ (L : List Nat) (st : PrepState), ∃ out, runBands f r L st = some out := by
  intro L
  induction L with
  | nil => intro st; exact ⟨st, rfl⟩
  | cons i rest ih =>
    intro st
    rw [runBands, processBand_some h]
    exact ih _

theorem runBands_none {f : String} {r : Raster} (h : ¬ cellsOK r) :
    ∀ (L : List Nat) (st : PrepState), L ≠ [] → runBands f r L st = none := by
  intro L st hL
  cases L with
  | nil => exact absurd rfl hL
  | cons i rest => rw [runBands, processBand_none h]; rfl

theorem runBands_cellsOK {f : String} {r : Raster} {L : List Nat} {st out : PrepState}
    (h : runBands f r L st = some out) (hL : L ≠ []) : cellsOK r := by
  by_contra hno
  rw [runBands_none hno L st hL] at h
  cases h

theorem runBands_allData {f : String} {r : Raster} :
    ∀ {L : List Nat} {st out : PrepState}, runBands f r L st = some out →
      ∀ i' ch yy xx, out.allData i' ch yy xx
        = if i' ∈ L ∧ ch = 0 then bandData f r i' yy xx else st.allData i' ch yy xx := by
  intro L
  induction L with
  | nil =>
    intro st out h i' ch yy xx
    rw [runBands, Option.some.injEq] at h
    rw [← h]
    simp
  | cons i rest ih =>
    intro st out h i' ch yy xx
    rw [runBands] at h
    cases hp : processBand f r st i with
    | none => rw [hp] at h; cases h
    | some st1 =>
      rw [hp] at h
      replace h : runBands f r rest st1 = some out := h
      rcases Option.map_eq_some'.mp hp with ⟨recs, _, hst1⟩
      have hmid := ih h i' ch yy xx
      have h1 : st1.allData i' ch yy xx
          = if i' = i ∧ ch = 0 then bandData f r i yy xx else st.allData i' ch yy xx := by
        rw [← hst1]
      rw [hmid]
      by_cases hch : ch = 0
      · subst hch
        by_cases hmem : i' ∈ rest
        · simp [hmem]
        · by_cases hi : i' = i
          · subst hi
            simp [hmem, h1]
          · simp [hmem, hi, h1]
      · simp [hch, h1]

theorem runBands_records {f : String} {r : Raster} :
    ∀ {L : List Nat} {st out : PrepState}, runBands f r L st = some out →
      out.records = st.records ++ expectedRecords f r (st.month, st.year) L := by
  intro L
  induction L with
  | nil =>
    intro st out h
    rw [runBands, Option.some.injEq] at h
    rw [← h, expectedRecords]
    simp
  | cons i rest ih =>
    intro st out h
    rw [runBands] at h
    cases hp : processBand f r st i with
    | none => rw [hp] at h; cases h
    | some st1 =>
      rw [hp] at h
      replace h : runBands f r rest st1 = some out := h
      rcases Option.map_eq_some'.mp hp with ⟨recs, hcell, hst1⟩
      have hrecs : recs = (allPairs r).map fun p =>
          { date := dateStr (emittedYM (st.month, st.year)), x := p.1, y := p.2,
            value := bandData f r i p.1 p.2 } :=
        cellsFrom_inv hcell
      have h1 : st1.records = st.records ++ recs := by rw [← hst1]
      have h2 : st1.month = (cursorStep (st.month, st.year)).1 := by rw [← hst1]
      have h3 : st1.year = (cursorStep (st.month, st.year)).2 := by rw [← hst1]
      rw [ih h, h1, h2, h3, expectedRecords, hrecs, List.append_assoc]

theorem length_downFrom : ∀ (k s : Nat), (downFrom s k).length = k := by
  intro k
  induction k with
  | zero => intro s; rfl
  | succ k ih => intro s; rw [downFrom, List.length_cons, ih]

theorem mem_downFrom : ∀ (k s i : Nat), k ≤ s + 1 →
    (i ∈ downFrom s k ↔ s + 1 - k ≤ i ∧ i ≤ s) := by
  intro k
  induction k with
  | zero =>
    intro s i h
    simp [downFrom]
    omega
  | succ k ih =>
    intro s i h
    rw [downFrom, List.mem_cons, ih (s - 1) i (by omega)]
    omega

theorem mem_bandList {n i : Nat} : i ∈ bandList n ↔ 2 ≤ i ∧ i < n := by
  rw [bandList]
  rcases Nat.lt_or_ge n 2 with h | h
  · have h2 : n - 2 = 0 := by omega
    rw [h2]
    simp [downFrom]
    omega
  · rw [mem_downFrom (n - 2) (n - 1) i (by omega)]
    omega

theorem expectedRecords_downFrom {f : String} {r : Raster} :
    ∀ (k s : Nat) (cur : Int × Int),
      expectedRecords f r cur (downFrom s k)
        = (List.range k).flatMap fun j =>
            (allPairs r).map fun p =>
              { date := dateStr (emittedAt cur j), x := p.1, y := p.2,
                value := bandData f r (s - j) p.1 p.2 } := by
  intro k
  induction k with
  | zero => intro s cur; rfl
  | succ k ih =>
    intro s cur
    rw [downFrom, expectedRecords, List.range_succ_eq_map, List.flatMap_cons,
      List.flatMap_map, ih (s - 1) (cursorStep cur)]
    congr 1
    have hF : (fun j => (allPairs r).map fun p =>
        ({ date := dateStr (emittedAt (cursorStep cur) j), x := p.1, y := p.2,
           value := bandData f r (s - 1 - j) p.1 p.2 } : Record))
        = fun j => (allPairs r).map fun p =>
        ({ date := dateStr (emittedAt cur (j + 1)), x := p.1, y := p.2,
           value := bandData f r (s - (j + 1)) p.1 p.2 } : Record) := by
      funext j
      have h1 : s - 1 - j = s - (j + 1) := by omega
      rw [h1]
      rfl
    rw [hF]

theorem preprocessRun_records {f : String} {r : Raster} {ey em : Int} {out : PrepState}
    (h : preprocessRun f ey em r = some out) :
    out.records = runRecords f r ey em r.numMonths := by
  have hrec := runBands_records h
  rw [runRecords, ← expectedRecords_downFrom (r.numMonths - 2) (r.numMonths - 1) (em, ey)]
  simpa [initState] using hrec

theorem length_allPairs (r : Raster) : (allPairs r).length = r.xsize * r.ysize := by
  rw [allPairs]
  simp [List.length_flatMap, Function.comp_def, List.map_const', List.sum_replicate,
    smul_eq_mul]

theorem length_runRecords (f : String) (r : Raster) (ey em : Int) (n : Nat) :
    (runRecords f r ey em n).length = (n - 2) * (r.xsize * r.ysize) := by
  rw [runRecords]
  simp [List.length_flatMap, Function.comp_def, length_allPairs, List.map_const',
    List.sum_replicate, smul_eq_mul]

theorem sum_list_range_map (g : Nat → ℚ) :
    ∀ k, ((List.range k).map g).sum = ∑ i ∈ Finset.range k, g i := by
  intro k
  induction k with
  | zero => rfl
  | succ k ih =>
    rw [List.range_succ, List.map_append, List.sum_append, Finset.sum_range_succ, ih]
    simp

theorem sum_list_range_flatMap (F : Nat → List ℚ) :
    ∀ k, ((List.range k).flatMap F).sum = ∑ i ∈ Finset.range k, (F i).sum := by
  intro k
  induction k with
  | zero => rfl
  | succ k ih =>
    rw [List.range_succ, List.flatMap_append, List.sum_append, Finset.sum_range_succ, ih]
    simp

theorem length_list_range_flatMap (F : Nat → List ℚ) :
    ∀ k, ((List.range k).flatMap F).length = ∑ i ∈ Finset.range k, (F i).length := by
  intro k
  induction k with
  | zero => rfl
  | succ k ih =>
    rw [List.range_succ, List.flatMap_append, List.length_append, Finset.sum_range_succ, ih]
    simp

theorem allEntries_sum (a : Nat → Nat → Nat → Nat → ℚ) (n ys xs : Nat) :
    (allEntries a n ys xs).sum
      = ∑ m ∈ Finset.range n, ∑ yy ∈ Finset.range ys, ∑ xx ∈ Finset.range xs,
          a m 0 yy xx := by
  rw [allEntries, sum_list_range_flatMap]
  refine Finset.sum_congr rfl fun m _ => ?_
  rw [sum_list_range_flatMap]
  refine Finset.sum_congr rfl fun yy _ => ?_
  rw [sum_list_range_map]

theorem allEntries_length (a : Nat → Nat → Nat → Nat → ℚ) (n ys xs : Nat) :
    (allEntries a n ys xs).length = n * (ys * xs) := by
  rw [allEntries, length_list_range_flatMap]
  have hin : ∀ m : Nat,
      ((List.range ys).flatMap fun yy => (List.range xs).map fun xx => a m 0 yy xx).length
        = ys * xs := by
    intro m
    rw [length_list_range_flatMap]
    simp [mul_comm]
  simp [hin, mul_comm]

theorem allEntries_map_sum (a : Nat → Nat → Nat → Nat → ℚ) (n ys xs : Nat) (g : ℚ → ℚ) :
    ((allEntries a n ys xs).map g).sum
      = ∑ m ∈ Finset.range n, ∑ yy ∈ Finset.range ys, ∑ xx ∈ Finset.range xs,
          g (a m 0 yy xx) := by
  rw [allEntries, List.map_flatMap, sum_list_range_flatMap]
  refine Finset.sum_congr rfl fun m _ => ?_
  rw [List.map_flatMap, sum_list_range_flatMap]
  refine Finset.sum_congr rfl fun yy _ => ?_
  rw [List.map_map, sum_list_range_map]
  rfl

theorem npMean_eq_directMean (a : Nat → Nat → Nat → Nat → ℚ) (n ys xs : Nat) :
    npMean (allEntries a n ys xs) = directMean a n ys xs := by
  rw [npMean, directMean, allEntries_sum, allEntries_length]

theorem npVariance_eq_directVariance (a : Nat → Nat → Nat → Nat → ℚ) (n ys xs : Nat) :
    npVariance (allEntries a n ys xs) = directVariance a n ys xs := by
  rw [npVariance, directVariance, allEntries_map_sum, allEntries_length,
    npMean_eq_directMean]

theorem directVariance_nonneg (a : Nat → Nat → Nat → Nat → ℚ) (n ys xs : Nat) :
    0 ≤ directVariance a n ys xs := by
  rw [directVariance]
  apply div_nonneg
  · refine Finset.sum_nonneg fun m _ => ?_
    refine Finset.sum_nonneg fun yy _ => ?_
    refine Finset.sum_nonneg fun xx _ => ?_
    positivity
  · positivity

theorem preprocessRun_as_runBands {f : String} {ey em : Int} {r : Raster}
    {out : PrepState} (h : preprocessRun f ey em r = some out) :
    runBands f r (bandList r.numMonths) (initState ey em) = some out := h

theorem bandList_ne_nil {n : Nat} (h : 3 ≤ n) : bandList n ≠ [] := by
  intro hnil
  have hl : (bandList n).length = n - 2 := by rw [bandList, length_downFrom]
  rw [hnil] at hl
  simp at hl
  omega

theorem cursorIter_succ_outer (cur : Int × Int) :
    ∀ k, cursorIter cur (k + 1) = cursorStep (cursorIter cur k) := by
  intro k
  induction k generalizing cur with
  | zero => rfl
  | succ k ih =>
    rw [cursorIter, ih (cursorStep cur)]
    rfl

theorem emittedAt_succ (cur : Int × Int) (k : Nat) :
    emittedAt cur (k + 1) = specMonthRoll (emittedAt cur k) := by
  rw [emittedAt, emittedAt, cursorIter_succ_outer]
  rcases hc : cursorIter cur k with ⟨m, y⟩
  by_cases hm : m = 0
  · subst hm
    simp [cursorStep, emittedYM, specMonthRoll]
  · by_cases hm1 : m = 1
    · subst hm1
      simp [cursorStep, emittedYM, specMonthRoll]
    · have hsub : ¬ (m - 1 = 0) := by omega
      simp [cursorStep, emittedYM, specMonthRoll, hm, hm1, hsub]

theorem emittedAt_month_range (cur : Int × Int) (h1 : 1 ≤ cur.1) (h2 : cur.1 ≤ 12) :
    ∀ k, 1 ≤ (emittedAt cur k).2 ∧ (emittedAt cur k).2 ≤ 12 := by
  intro k
  induction k with
  | zero =>
    have : ¬ (cur.1 = 0) := by omega
    simp [emittedAt, cursorIter, emittedYM, this]
    omega
  | succ k ih =>
    rw [emittedAt_succ]
    rcases ih with ⟨ihl, ihr⟩
    rw [specMonthRoll]
    by_cases hm : (emittedAt cur k).2 = 1
    · simp [hm]
    · simp [hm]
      omega

/-!
Claim theorems.
-/

/-- C2: for every raw raster band value, the value stored into the Normalized
Array (and exported to the Tabular Records) equals the raw value divided by
100 when the preprocessor is invoked with band name "pdsi", and equals the raw
value unchanged for every other band name. -/
theorem pdsi_normalization (f : String) (ey em : Int) (r : Raster) (out : PrepState)
    (h : preprocessRun f ey em r = some out) :
    (∀ i yy xx, 2 ≤ i → i < r.numMonths →
      out.allData i 0 yy xx
        = if f = "pdsi" then r.bands i yy xx / 100 else r.bands i yy xx)
    ∧ (∀ rec ∈ out.records, ∃ b p q,
        rec.value = if f = "pdsi" then r.bands b p q / 100 else r.bands b p q) := by
  constructor
  · intro i yy xx h2 hn
    have hmem : i ∈ bandList r.numMonths := mem_bandList.mpr ⟨h2, hn⟩
    rw [runBands_allData (preprocessRun_as_runBands h) i 0 yy xx]
    simp [hmem, bandData, normValue]
  · intro rec hrec
    rw [preprocessRun_records h, runRecords] at hrec
    rcases List.mem_flatMap.mp hrec with ⟨k, _, hrec2⟩
    rcases List.mem_map.mp hrec2 with ⟨p, _, hpeq⟩
    refine ⟨r.numMonths - 1 - k, p.1, p.2, ?_⟩
    rw [← hpeq]
    simp [bandData, normValue]

/-- Witness for C2: on a concrete 3-band 1x1 pdsi raster the processed entry
of the Normalized Array equals the raw value 5 divided by 100. -/
theorem pdsi_normalization_witness :
    preprocessRun ("pdsi") 2020 1 wRasterPdsi = some (wOut ("pdsi") 2020 1 wRasterPdsi)
    ∧ (∀ i yy xx, 2 ≤ i → i < wRasterPdsi.numMonths →
        (wOut ("pdsi") 2020 1 wRasterPdsi).allData i 0 yy xx
          = if ("pdsi" : String) = "pdsi" then wRasterPdsi.bands i yy xx / 100
            else wRasterPdsi.bands i yy xx) :=
  ⟨rfl, (pdsi_normalization ("pdsi") 2020 1 wRasterPdsi
    (wOut ("pdsi") 2020 1 wRasterPdsi) rfl).1⟩

/-- C3 counterexample: on a concrete square raster, the Tabular Record written
for `(x, y) = (0, 1)` carries value `data[0][1] = 21`, but the Normalized
Array entry at `(month_index, 0, y, x) = (2, 0, 1, 0)` is `data[1][0] = 22`,
so the claimed equality at `(month_index, 0, y, x)` is false. -/
theorem array_table_consistency_counterexample :
    (preprocessRun ("t") 2020 1 exRaster).map
        (fun out => (out.records[1]?.map fun rec => (rec.x, rec.y, rec.value),
          out.allData 2 0 1 0))
      = some (some (0, 1, (21 : ℚ)), (22 : ℚ))
    ∧ (21 : ℚ) ≠ 22 := by
  constructor
  · decide
  · decide

/-- C3 (amended): for every processed month and spatial cell, the value field
of the Tabular Record written for `(x, y)` equals the Normalized Array entry
for the same month at `(month_index, 0, x, y)` — the third array index is the
record's `x` and the fourth its `y`, transposed relative to the `(y, x)`
layout of the claim. -/
theorem array_table_consistency (f : String) (ey em : Int) (r : Raster)
    (out : PrepState) (h : preprocessRun f ey em r = some out) :
    out.records = runRecords f r ey em r.numMonths
    ∧ (∀ k x y, k < r.numMonths - 2 → x < r.xsize → y < r.ysize →
        bandData f r (r.numMonths - 1 - k) x y
          = out.allData (r.numMonths - 1 - k) 0 x y) := by
  refine ⟨preprocessRun_records h, ?_⟩
  intro k x y hk _ _
  have hmem : r.numMonths - 1 - k ∈ bandList r.numMonths := mem_bandList.mpr (by omega)
  rw [runBands_allData (preprocessRun_as_runBands h) (r.numMonths - 1 - k) 0 x y]
  simp [hmem]

/-- Witness for the amended C3 on a concrete square 4-band raster. -/
theorem array_table_consistency_witness :
    preprocessRun ("t") 2020 1 wRaster = some (wOut ("t") 2020 1 wRaster)
    ∧ (wOut ("t") 2020 1 wRaster).records = runRecords ("t") wRaster 2020 1 wRaster.numMonths :=
  ⟨rfl, (array_table_consistency ("t") 2020 1 wRaster (wOut ("t") 2020 1 wRaster) rfl).1⟩

/-- C4: for a raster with N bands, exactly the N-2 band indices N-1 down to 2
are processed; only those month slots of the Normalized Array receive band
data and contribute records, every other slot (in particular indices 0 and 1)
stays at its zero-initialized value, and the record collection has exactly
(N-2) * xsize * ysize rows. -/
theorem loop_boundary (f : String) (ey em : Int) (r : Raster) (out : PrepState)
    (h : preprocessRun f ey em r = some out) :
    (bandList r.numMonths).length = r.numMonths - 2
    ∧ (∀ i, i ∈ bandList r.numMonths ↔ 2 ≤ i ∧ i < r.numMonths)
    ∧ (∀ i yy xx, 2 ≤ i → i < r.numMonths →
        out.allData i 0 yy xx = bandData f r i yy xx)
    ∧ (∀ i ch yy xx, ¬ (2 ≤ i ∧ i < r.numMonths ∧ ch = 0) →
        out.allData i ch yy xx = 0)
    ∧ out.records.length = (r.numMonths - 2) * (r.xsize * r.ysize) := by
  refine ⟨by rw [bandList, length_downFrom], fun i => mem_bandList, ?_, ?_, ?_⟩
  · intro i yy xx h2 hn
    have hmem : i ∈ bandList r.numMonths := mem_bandList.mpr ⟨h2, hn⟩
    rw [runBands_allData (preprocessRun_as_runBands h) i 0 yy xx]
    simp [hmem]
  · intro i ch yy xx hno
    rw [runBands_allData (preprocessRun_as_runBands h) i ch yy xx]
    have : ¬ (i ∈ bandList r.numMonths ∧ ch = 0) := by
      rw [mem_bandList]
      tauto
    rw [if_neg this]
    rfl
  · rw [preprocessRun_records h, length_runRecords]

/-- Witness for C4 on a concrete square 4-band 2x2 raster: 2 bands processed,
8 records. -/
theorem loop_boundary_witness :
    preprocessRun ("t") 2020 1 wRaster = some (wOut ("t") 2020 1 wRaster)
    ∧ (wOut ("t") 2020 1 wRaster).records.length
        = (wRaster.numMonths - 2) * (wRaster.xsize * wRaster.ysize) :=
  ⟨rfl, (loop_boundary ("t") 2020 1 wRaster (wOut ("t") 2020 1 wRaster) rfl).2.2.2.2⟩

/-- C5: starting at (endmonth, endyear), each band-loop iteration emits the
date string "{year}-{month}" without zero padding and then decrements the
cursor by one month, rolling the month back to 12 and decrementing the year
exactly when the month underflows; the emitted sequence for endyear 2020,
endmonth 1 starts 2020-1, 2019-12, 2019-11, ..., and the records of a
completing run carry exactly these dates. -/
theorem date_cursor_correct (ey em : Int) (h1 : 1 ≤ em) (h2 : em ≤ 12) :
    emittedAt (em, ey) 0 = (ey, em)
    ∧ (∀ k, emittedAt (em, ey) (k + 1) = specMonthRoll (emittedAt (em, ey) k))
    ∧ (∀ k, 1 ≤ (emittedAt (em, ey) k).2 ∧ (emittedAt (em, ey) k).2 ≤ 12)
    ∧ (∀ k, ((emittedAt (em, ey) (k + 1)).1 = (emittedAt (em, ey) k).1 - 1
          ∧ (emittedAt (em, ey) (k + 1)).2 = 12)
        ∨ ((emittedAt (em, ey) (k + 1)).1 = (emittedAt (em, ey) k).1
          ∧ (emittedAt (em, ey) (k + 1)).2 = (emittedAt (em, ey) k).2 - 1
          ∧ (emittedAt (em, ey) (k + 1)).2 ≠ 12))
    ∧ ((List.range 4).map fun k => dateStr (emittedAt (1, 2020) k))
        = ["2020-1", "2019-12", "2019-11", "2019-10"]
    ∧ (∀ (f : String) (r : Raster) (out : PrepState),
        preprocessRun f ey em r = some out →
          out.records = runRecords f r ey em r.numMonths) := by
  have hne : ¬ (em = 0) := by omega
  refine ⟨by simp [emittedAt, cursorIter, emittedYM, hne],
    fun k => emittedAt_succ _ k, emittedAt_month_range _ h1 h2, ?_, by decide,
    fun f r out h => preprocessRun_records h⟩
  intro k
  have hr := emittedAt_month_range (em, ey) h1 h2 k
  rw [emittedAt_succ, specMonthRoll]
  by_cases hm : (emittedAt (em, ey) k).2 = 1
  · left
    rw [if_pos hm]
    exact ⟨rfl, rfl⟩
  · right
    rw [if_neg hm]
    refine ⟨rfl, rfl, ?_⟩
    show (emittedAt (em, ey) k).2 - 1 ≠ 12
    omega

/-- Witness for C5 at endyear 2020, endmonth 1. -/
theorem date_cursor_correct_witness :
    (1 : Int) ≤ 1 ∧ (1 : Int) ≤ 12 ∧ emittedAt (1, 2020) 0 = (2020, 1) :=
  ⟨by decide, by decide, (date_cursor_correct 2020 1 (by decide) (by decide)).1⟩

/-- C6: the two (1,1,1,1)-shaped statistics arrays hold exactly the mean and
the population standard deviation of the entire Normalized Array — all month
slots and all cells, the zero-initialized slots included — equal to the same
statistics computed directly over the full array. -/
theorem global_stats_correct (f : String) (ey em : Int) (r : Raster)
    (out : PrepState) (_h : preprocessRun f ey em r = some out) :
    globalMeans out r 0 0 0 0 = directMean out.allData r.numMonths r.ysize r.xsize
    ∧ globalStds out r 0 0 0 0 = directStd out.allData r.numMonths r.ysize r.xsize
    ∧ (allEntries out.allData r.numMonths r.ysize r.xsize).length
        = r.numMonths * (r.ysize * r.xsize)
    ∧ (globalStds out r 0 0 0 0) ^ 2
        = ((directVariance out.allData r.numMonths r.ysize r.xsize : ℚ) : ℝ) := by
  have hm : globalMeans out r 0 0 0 0
      = npMean (allEntries out.allData r.numMonths r.ysize r.xsize) := by
    simp [globalMeans]
  have hs : globalStds out r 0 0 0 0
      = npStd (allEntries out.allData r.numMonths r.ysize r.xsize) := by
    simp [globalStds]
  refine ⟨?_, ?_, allEntries_length _ _ _ _, ?_⟩
  · rw [hm, npMean_eq_directMean]
  · rw [hs, npStd, directStd, npVariance_eq_directVariance]
  · rw [hs, npStd, npVariance_eq_directVariance]
    exact Real.sq_sqrt (by exact_mod_cast directVariance_nonneg _ _ _ _)

/-- Witness for C6 on a concrete square 4-band 2x2 raster. -/
theorem global_stats_correct_witness :
    preprocessRun ("t") 2020 1 wRaster = some (wOut ("t") 2020 1 wRaster)
    ∧ (allEntries (wOut ("t") 2020 1 wRaster).allData wRaster.numMonths
        wRaster.ysize wRaster.xsize).length
      = wRaster.numMonths * (wRaster.ysize * wRaster.xsize) :=
  ⟨rfl, (global_stats_correct ("t") 2020 1 wRaster (wOut ("t") 2020 1 wRaster)
    rfl).2.2.1⟩

/-- C10 counterexample: for the degenerate raster with ysize 0 and xsize 1 the
inner per-cell loop body never runs, so the run completes even though xsize
exceeds ysize — the claim's "aborts whenever xsize exceeds ysize" and
"completes only for xsize ≤ ysize" both fail. -/
theorem cell_export_bounds_counterexample :
    degRaster.ysize < degRaster.xsize
    ∧ (preprocessRun ("t") 2020 1 degRaster).isSome = true := by
  exact ⟨by decide, rfl⟩

/-- C10 (amended): for a raster with nonempty rows (ysize ≥ 1) and at least
one processed band (N ≥ 3), if xsize exceeds ysize the per-cell export aborts
with an out-of-bounds read already on the first processed band and the run
returns no output; consequently a completing run has xsize ≤ ysize. -/
theorem cell_export_bounds (f : String) (ey em : Int) (r : Raster)
    (hy : 1 ≤ r.ysize) (hn : 3 ≤ r.numMonths) :
    (r.ysize < r.xsize →
      processBand f r (initState ey em) (r.numMonths - 1) = none
      ∧ preprocessRun f ey em r = none)
    ∧ (∀ out, preprocessRun f ey em r = some out → r.xsize ≤ r.ysize) := by
  constructor
  · intro hlt
    have hno : ¬ cellsOK r := by
      intro hok
      have hcon := hok r.ysize hlt 0 hy
      omega
    refine ⟨processBand_none hno, ?_⟩
    rw [preprocessRun]
    exact runBands_none hno _ _ (bandList_ne_nil hn)
  · intro out hout
    rcases Nat.eq_zero_or_pos r.xsize with hx0 | hx
    · omega
    · have hok := runBands_cellsOK (preprocessRun_as_runBands hout) (bandList_ne_nil hn)
      have := hok (r.xsize - 1) (by omega) 0 (by omega)
      omega

/-- Witness for the amended C10 on a concrete 3-band raster with xsize 2 and
ysize 1: the first processed band aborts and the run returns no output. -/
theorem cell_export_bounds_witness :
    1 ≤ wBadRaster.ysize ∧ 3 ≤ wBadRaster.numMonths
    ∧ (wBadRaster.ysize < wBadRaster.xsize →
        processBand ("t") wBadRaster (initState 2020 1) (wBadRaster.numMonths - 1) = none
        ∧ preprocessRun ("t") 2020 1 wBadRaster = none) :=
  ⟨by decide, by decide,
    (cell_export_bounds ("t") 2020 1 wBadRaster (by decide) (by decide)).1⟩

theorem shape_fields {t : Tensor4} {a b c d : Nat} (h : t.shape = (a, b, c, d)) :
    t.n = a ∧ t.c = b ∧ t.h = c ∧ t.w = d := by
  rw [Tensor4.shape] at h
  simpa [Prod.ext_iff] using h

/-- C1: for every input of shape (batch, 1, hor, ver) and previous state of
matching shapes, the forward computation of a constructed module returns
((next_cell, next_hidden), prediction) with next_cell = prev_cell *
forget(concat) + input_gate(concat) * candidate(concat), next_hidden =
tanh(next_cell) * output_gate(concat), concat the channel concatenation of
prev_hidden and embedding(x), and prediction = final_decode(next_hidden); the
constructed hidden_to_result stage is never applied, so replacing it changes
neither the returned state nor the prediction. -/
theorem forward_computation (cb : ConvBlockFactory)
    (conv2d : Nat → Nat → Nat → Nat → Nat → Bool → Tensor4 → Tensor4)
    (sigmoidFn tanhFn reluFn : ℚ → ℚ) (softmax1 : Tensor4 → Tensor4)
    (e hs hor ver b : Nat) (M : RCNNModule)
    (_hM : M = mkRCNNModule cb conv2d sigmoidFn tanhFn reluFn softmax1 e hs hor ver b)
    (x pc ph : Tensor4)
    (_hx : x.shape = (b, 1, hor, ver))
    (hpc : pc.shape = (b, hs, hor, ver))
    (hph : ph.shape = (b, hs, hor, ver)) :
    M.forward tanhFn x (pc, ph)
      = some ((lstmNextCell M x pc ph, lstmNextHidden tanhFn M x pc ph),
          M.final_conv (lstmNextHidden tanhFn M x pc ph))
    ∧ ∀ g, ({ M with hidden_to_result := g } : RCNNModule).forward tanhFn x (pc, ph)
        = M.forward tanhFn x (pc, ph) := by
  constructor
  · simp only [RCNNModule.forward]
    rw [if_pos ⟨hph.trans hpc.symm, rfl⟩]
    rfl
  · intro g
    rfl

/-- Witness for C1 on a concrete all-sizes-1 module built from concrete
factories: the forward result is independent of the hidden_to_result stage. -/
theorem forward_computation_witness :
    wModule = mkRCNNModule constCB wConv2d id id id id 1 1 1 1 1
    ∧ wTensor.shape = (1, 1, 1, 1)
    ∧ (∀ g, ({ wModule with hidden_to_result := g } : RCNNModule).forward id
          wTensor (wTensor, wTensor)
        = wModule.forward id wTensor (wTensor, wTensor)) :=
  ⟨rfl, rfl, (forward_computation constCB wConv2d id id id id 1 1 1 1 1 wModule rfl
    wTensor wTensor wTensor rfl rfl rfl).2⟩

/-- C7: the step computation runs forward on the carried state, installs the
returned (next_cell, next_hidden) as the new carried state, then computes the
mean-squared-error loss between the prediction and the target and returns
(loss, prediction, target); the state is replaced before the loss is computed,
so a failure during the loss computation leaves the new state installed. -/
theorem step_state_replacement (tanhFn : ℚ → ℚ) (M : RCNNModule)
    (st : Tensor4 × Tensor4) (x y : Tensor4) (st' : Tensor4 × Tensor4)
    (preds : Tensor4) (h : M.forward tanhFn x st = some (st', preds)) :
    M.step tanhFn st (x, y) = some (st', (mseLoss preds y).map fun l => (l, preds, y))
    ∧ (mseLoss preds y = none → M.step tanhFn st (x, y) = some (st', none))
    ∧ (∀ l, mseLoss preds y = some l →
        M.step tanhFn st (x, y) = some (st', some (l, preds, y))) := by
  have hstep : M.step tanhFn st (x, y)
      = some (st', (mseLoss preds y).map fun l => (l, preds, y)) := by
    rw [RCNNModule.step, show M.forward tanhFn (x, y).1 st = some (st', preds) from h]
    rfl
  refine ⟨hstep, fun hn => by rw [hstep, hn]; rfl, fun l hl => by rw [hstep, hl]; rfl⟩

/-- Witness for C7 on a concrete module and batch. -/
theorem step_state_replacement_witness :
    wModule.forward id wTensor (wTensor, wTensor) = some (wFwd.1, wFwd.2)
    ∧ wModule.step id (wTensor, wTensor) (wTensor, wTensor)
        = some (wFwd.1, (mseLoss wFwd.2 wTensor).map fun l => (l, wFwd.2, wTensor)) :=
  ⟨rfl, (step_state_replacement id wModule (wTensor, wTensor) wTensor wTensor
    wFwd.1 wFwd.2 rfl).1⟩

/-- C8: for every valid configuration with input and previous state of the
matching shapes, the embedding and gate stages of a constructed module produce
the documented shapes, forward succeeds (the assertions' failure branch is
unreachable), the computed next_cell and next_hidden have the same shapes as
prev_cell and prev_hidden, and a mismatched state configuration makes forward
fail with the fatal shape error. -/
theorem forward_shape_invariants (cb : ConvBlockFactory)
    (conv2d : Nat → Nat → Nat → Nat → Nat → Bool → Tensor4 → Tensor4)
    (sigmoidFn tanhFn reluFn : ℚ → ℚ) (softmax1 : Tensor4 → Tensor4)
    (e hs hor ver b : Nat) (M : RCNNModule)
    (hM : M = mkRCNNModule cb conv2d sigmoidFn tanhFn reluFn softmax1 e hs hor ver b)
    (hhor : 1 ≤ hor) (hver : 1 ≤ ver) (x pc ph : Tensor4)
    (hx : x.shape = (b, 1, hor, ver))
    (hpc : pc.shape = (b, hs, hor, ver))
    (hph : ph.shape = (b, hs, hor, ver)) :
    (M.embedding x).shape = (b, e, hor, ver)
    ∧ (M.f_t (lstmConcat M x ph)).shape = (b, hs, hor, ver)
    ∧ (M.forward tanhFn x (pc, ph)).isSome = true
    ∧ (∀ nc nh p, M.forward tanhFn x (pc, ph) = some ((nc, nh), p) →
        nc.shape = pc.shape ∧ nh.shape = ph.shape)
    ∧ (∀ pc' ph', ph'.shape ≠ pc'.shape → M.forward tanhFn x (pc', ph') = none) := by
  subst hM
  obtain ⟨hxn, hxc, hxh, hxw⟩ := shape_fields hx
  obtain ⟨hpn, hpc2, hph2, hpw⟩ := shape_fields hph
  have hinner := cb.shape_ok 1 e 3 x hxc (by omega) (by omega)
  obtain ⟨h1n, h1c, h1h, h1w⟩ := shape_fields hinner
  have houter := cb.shape_ok e e 3 (tmap reluFn (cb.make 1 e 3 x)) h1c
    (by show 1 ≤ (cb.make 1 e 3 x).h; omega) (by show 1 ≤ (cb.make 1 e 3 x).w; omega)
  have hemb : ((mkRCNNModule cb conv2d sigmoidFn tanhFn reluFn softmax1
      e hs hor ver b).embedding x).shape = (b, e, hor, ver) := by
    rw [show ((mkRCNNModule cb conv2d sigmoidFn tanhFn reluFn softmax1
        e hs hor ver b).embedding x).shape
      = (cb.make e e 3 (tmap reluFn (cb.make 1 e 3 x))).shape from rfl, houter]
    show ((cb.make 1 e 3 x).n, e, (cb.make 1 e 3 x).h, (cb.make 1 e 3 x).w)
      = (b, e, hor, ver)
    rw [h1n, h1h, h1w, hxn, hxh, hxw]
  obtain ⟨hen, hec, heh, hew⟩ := shape_fields hemb
  have hcatc : (lstmConcat (mkRCNNModule cb conv2d sigmoidFn tanhFn reluFn softmax1
      e hs hor ver b) x ph).c = hs + e := by
    show ph.c + ((mkRCNNModule cb conv2d sigmoidFn tanhFn reluFn softmax1
      e hs hor ver b).embedding x).c = hs + e
    rw [hpc2, hec]
  have hgate := cb.shape_ok (hs + e) hs 3
    (lstmConcat (mkRCNNModule cb conv2d sigmoidFn tanhFn reluFn softmax1
      e hs hor ver b) x ph) hcatc
    (by show 1 ≤ ph.h; omega) (by show 1 ≤ ph.w; omega)
  have hft : ((mkRCNNModule cb conv2d sigmoidFn tanhFn reluFn softmax1
      e hs hor ver b).f_t (lstmConcat (mkRCNNModule cb conv2d sigmoidFn tanhFn
      reluFn softmax1 e hs hor ver b) x ph)).shape = (b, hs, hor, ver) := by
    rw [show ((mkRCNNModule cb conv2d sigmoidFn tanhFn reluFn softmax1
        e hs hor ver b).f_t (lstmConcat (mkRCNNModule cb conv2d sigmoidFn tanhFn
        reluFn softmax1 e hs hor ver b) x ph)).shape
      = (cb.make (hs + e) hs 3 (lstmConcat (mkRCNNModule cb conv2d sigmoidFn tanhFn
        reluFn softmax1 e hs hor ver b) x ph)).shape from rfl, hgate]
    show (ph.n, hs, ph.h, ph.w) = (b, hs, hor, ver)
    rw [hpn, hph2, hpw]
  refine ⟨hemb, hft, ?_, ?_, ?_⟩
  · simp only [RCNNModule.forward]
    rw [if_pos ⟨hph.trans hpc.symm, rfl⟩]
    rfl
  · intro nc nh p hfwd
    simp only [RCNNModule.forward] at hfwd
    rw [if_pos ⟨hph.trans hpc.symm, rfl⟩] at hfwd
    have h2 := Option.some.inj hfwd
    have hnc : lstmNextCell (mkRCNNModule cb conv2d sigmoidFn tanhFn reluFn softmax1
        e hs hor ver b) x pc ph = nc := congrArg (fun q => q.1.1) h2
    have hnh : lstmNextHidden tanhFn (mkRCNNModule cb conv2d sigmoidFn tanhFn reluFn
        softmax1 e hs hor ver b) x pc ph = nh := congrArg (fun q => q.1.2) h2
    constructor
    · rw [← hnc]; rfl
    · rw [← hnh]
      exact hpc.trans hph.symm
  · intro pc' ph' hne
    simp only [RCNNModule.forward]
    rw [if_neg]
    rintro ⟨hc1, -⟩
    exact hne hc1

/-- Witness for C8 on a concrete all-sizes-1 module. -/
theorem forward_shape_invariants_witness :
    wModule = mkRCNNModule constCB wConv2d id id id id 1 1 1 1 1
    ∧ wTensor.shape = (1, 1, 1, 1)
    ∧ (wModule.forward id wTensor (wTensor, wTensor)).isSome = true :=
  ⟨rfl, rfl, (forward_shape_invariants constCB wConv2d id id id id 1 1 1 1 1 wModule
    rfl (by decide) (by decide) wTensor wTensor wTensor rfl rfl rfl).2.2.1⟩

/-- C9: configure_optimizers builds a single Adam optimizer with learning rate
hparams.lr and weight decay hparams.weight_decay; neither key is among the
declared constructor parameters, so on a model constructed with only the
declared parameters it fails with the fatal missing-attribute error, and it
succeeds exactly when the caller supplies the two hyperparameters
externally. -/
theorem configure_optimizers_requires_lr (e hs hor ver b : Nat) :
    configure_optimizers (declaredHparams e hs hor ver b) = none
    ∧ (∀ l w : ℚ,
        configure_optimizers
            (declaredHparams e hs hor ver b ++ [("lr", l), ("weight_decay", w)])
          = some { lr := l, weight_decay := w }) := by
  constructor
  · rfl
  · intro l w
    rfl

end Droughts
